import Mathlib

/-!
Shallow embedding of `kickout.js` (rse/kickout), a release-automation CLI.
Strings are modelled as Lean `String` / `List Char`; the external world
(shell commands run by `execa`) is an environment function mapping a command
line to `some (stdout, stderr)` on success and `none` on failure; effects
(commands executed, dry-run command echoes, manifest writes) are traced.

The `semver` npm library calls used by the source (`semver.neq`,
`semver.inc`) are modelled by `semverParse` / `semverCompare` / `incSemVer`
following node-semver's strict (non-loose) grammar and comparison rules.
The `RegExp` built at kickout.js:155 together with `String.replace` (first
match only, `escape-string-regexp` applied to the old version, so the old
version is matched literally) is modelled by `matchVersionAt` /
`replaceAtFirst`.
-/

namespace Kickout

/-! ### Character classes -/

def isDigitCh (c : Char) : Bool := decide ('0' ≤ c) && decide (c ≤ '9')

def isIdentCh (c : Char) : Bool :=
  isDigitCh c || (decide ('a' ≤ c) && decide (c ≤ 'z')) ||
    (decide ('A' ≤ c) && decide (c ≤ 'Z')) || decide (c = '-')

/-- the character class `[ \t\r\n]` of the rewrite regex -/
def isWSChar (c : Char) : Bool :=
  decide (c = ' ') || decide (c = '\t') || decide (c = '\r') || decide (c = '\n')

/-- the character class of a quote, single (codepoint 39) or double -/
def isQuoteCh (c : Char) : Bool := decide (c = '"') || decide (c = Char.ofNat 39)

/-! ### Semantic versions (node-semver, strict grammar) -/

/-- a prerelease identifier: numeric (stored as its value) or alphanumeric -/
inductive PreId where
  | num (n : Nat)
  | str (s : String)
deriving DecidableEq, Repr

structure SemVer where
  major : Nat
  minor : Nat
  patch : Nat
  prerelease : List PreId
  build : List String
deriving DecidableEq, Repr

def digitsToNat (ds : List Char) : Nat :=
  ds.foldl (fun a c => a * 10 + (c.toNat - 48)) 0

/-- numeric component: `0|[1-9]\d*` (no leading zeros), greedy digits -/
def parseNumId (l : List Char) : Option (Nat × List Char) :=
  let ds := l.takeWhile isDigitCh
  if ds = [] then none
  else if ds.head? = some '0' ∧ ds.length ≠ 1 then none
  else some (digitsToNat ds, l.dropWhile isDigitCh)

def expectChar (c : Char) : List Char → Option (List Char)
  | x :: xs => if x = c then some xs else none
  | [] => none

/-- valid prerelease identifier: `0|[1-9]\d*|\d*[a-zA-Z-][a-zA-Z0-9-]*` -/
def validPreId (l : List Char) : Bool :=
  decide (l ≠ []) && l.all isIdentCh &&
    (if l.all isDigitCh then decide (l.head? ≠ some '0') || decide (l.length = 1) else true)

def preIdOf (l : List Char) : PreId :=
  if l.all isDigitCh then .num (digitsToNat l) else .str (String.mk l)

def validBuildId (l : List Char) : Bool := decide (l ≠ []) && l.all isIdentCh

/-- the `-prerelease` / `+build` tail of a strict semver string -/
def parseTail (l : List Char) : Option (List PreId × List String) :=
  match l with
  | [] => some ([], [])
  | '+' :: b =>
      let chunks := b.splitOn '.'
      if chunks.all validBuildId then some ([], chunks.map String.mk) else none
  | '-' :: r =>
      let preCs := r.takeWhile (fun c => c ≠ '+')
      let chunks := preCs.splitOn '.'
      if chunks.all validPreId then
        match r.dropWhile (fun c => c ≠ '+') with
        | [] => some (chunks.map preIdOf, [])
        | '+' :: b =>
            let bchunks := b.splitOn '.'
            if bchunks.all validBuildId then some (chunks.map preIdOf, bchunks.map String.mk)
            else none
        | _ => none
      else none
  | _ => none

def trimWS (l : List Char) : List Char :=
  ((l.dropWhile isWSChar).reverse.dropWhile isWSChar).reverse

def dropVPfx : List Char → List Char
  | 'v' :: r => r
  | l => l

/-- node-semver's `MAX_SAFE_INTEGER` bound on each numeric component -/
def maxSafeInt : Nat := 9007199254740991

/-- `new SemVer(s)` of node-semver, strict mode: trims whitespace, allows an
optional leading `v`, requires `0|[1-9]\d*` numeric components, optional
prerelease and build, and rejects over-length / over-size input. -/
def semverParse (s : String) : Option SemVer := do
  if s.length > 256 then none else
  let l := dropVPfx (trimWS s.toList)
  let (ma, l) ← parseNumId l
  let l ← expectChar '.' l
  let (mi, l) ← parseNumId l
  let l ← expectChar '.' l
  let (pa, l) ← parseNumId l
  let (pre, build) ← parseTail l
  if ma > maxSafeInt ∨ mi > maxSafeInt ∨ pa > maxSafeInt then none
  else some ⟨ma, mi, pa, pre, build⟩

def cmpNat (a b : Nat) : Int := if a < b then -1 else if a = b then 0 else 1

def compareIdent : PreId → PreId → Int
  | .num a, .num b => cmpNat a b
  | .num _, .str _ => -1
  | .str _, .num _ => 1
  | .str a, .str b => if a = b then 0 else if a < b then -1 else 1

def comparePreLists : List PreId → List PreId → Int
  | [], [] => 0
  | [], _ :: _ => -1
  | _ :: _, [] => 1
  | a :: as, b :: bs => let c := compareIdent a b; if c = 0 then comparePreLists as bs else c

/-- node-semver `comparePre`: a version without prerelease sorts above one
with a prerelease; otherwise identifiers compare pairwise. -/
def comparePre (a b : List PreId) : Int :=
  if a ≠ [] ∧ b = [] then -1
  else if a = [] ∧ b ≠ [] then 1
  else comparePreLists a b

/-- node-semver `compare`: main triple then prerelease; build ignored. -/
def semverCompare (a b : SemVer) : Int :=
  let c := cmpNat a.major b.major
  if c ≠ 0 then c else
  let c := cmpNat a.minor b.minor
  if c ≠ 0 then c else
  let c := cmpNat a.patch b.patch
  if c ≠ 0 then c else comparePre a.prerelease b.prerelease

inductive Bump where
  | major
  | minor
  | patch
deriving DecidableEq, Repr

/-- the `bump.match(/^(?:major|minor|patch)$/)` test at kickout.js:154 -/
def bumpOfString (s : String) : Option Bump :=
  if s = "major" then some .major
  else if s = "minor" then some .minor
  else if s = "patch" then some .patch
  else none

/-- node-semver `SemVer.inc` for `major`/`minor`/`patch`; build is dropped
(the returned `.version` never includes build metadata). -/
def incSemVer (v : SemVer) : Bump → SemVer
  | .major =>
      if v.minor ≠ 0 ∨ v.patch ≠ 0 ∨ v.prerelease = [] then ⟨v.major + 1, 0, 0, [], []⟩
      else ⟨v.major, 0, 0, [], []⟩
  | .minor =>
      if v.patch ≠ 0 ∨ v.prerelease = [] then ⟨v.major, v.minor + 1, 0, [], []⟩
      else ⟨v.major, v.minor, 0, [], []⟩
  | .patch =>
      if v.prerelease = [] then ⟨v.major, v.minor, v.patch + 1, [], []⟩
      else ⟨v.major, v.minor, v.patch, [], []⟩

def preIdToString : PreId → String
  | .num n => toString n
  | .str s => s

/-- node-semver `SemVer.format` (the `.version` field; build not included) -/
def formatSemVer (v : SemVer) : String :=
  let base := toString v.major ++ "." ++ toString v.minor ++ "." ++ toString v.patch
  if v.prerelease = [] then base
  else base ++ "-" ++ String.intercalate "." (v.prerelease.map preIdToString)

/-- `\d+\.\d+\.\d+` (anchored), the explicit-version alternative of the
argument validation at kickout.js:78 -/
def isExplicitVersion (s : String) : Bool :=
  match s.toList.splitOn '.' with
  | [a, b, c] =>
      decide (a ≠ []) && decide (b ≠ []) && decide (c ≠ []) && (a ++ b ++ c).all isDigitCh
  | _ => false

/-- kickout.js:154: `bump.match(/^(?:major|minor|patch)$/) ?
semver.inc(pkg.version, bump) : bump` (with `cur` the parsed current
version, which `semver.inc` re-parses from the same string). -/
def resolveNewVersion (bump : String) (cur : SemVer) : String :=
  match bumpOfString bump with
  | some k => formatSemVer (incSemVer cur k)
  | none => bump

/-! ### Manifest rewriter (kickout.js:155-158) -/

/-- consume an exact literal (the `escRE(versionOld)` part of the regex:
`escape-string-regexp` makes the old version match literally) -/
def dropLit : List Char → List Char → Option (List Char)
  | [], l => some l
  | c :: cs, x :: xs => if x = c then dropLit cs xs else none
  | _ :: _, [] => none

def takeQuote : List Char → Option (Char × List Char)
  | c :: r => if isQuoteCh c then some (c, r) else none
  | [] => none

/-- attempt of the regex
`(["']version["'][ \t\r\n]*:[ \t\r\n]*["'])<old>(["'])` at the head of `l`;
returns (capture group 1, capture group 2, remainder).  The whitespace
stars are followed by `:` resp. a quote, neither of which is whitespace,
so greedy matching without backtracking is exact. -/
def matchVersionAt (old l : List Char) : Option (List Char × Char × List Char) := do
  let (q1, r1) ← takeQuote l
  let r2 ← dropLit "version".toList r1
  let (q2, r3) ← takeQuote r2
  let ws1 := r3.takeWhile isWSChar
  let r4 ← expectChar ':' (r3.dropWhile isWSChar)
  let ws2 := r4.takeWhile isWSChar
  let (q3, r6) ← takeQuote (r4.dropWhile isWSChar)
  let r7 ← dropLit old r6
  let (q4, r8) ← takeQuote r7
  some (q1 :: "version".toList ++ q2 :: ws1 ++ ':' :: ws2 ++ [q3], q4, r8)

/-- `pkgData.replace(re, "$1" + versionNew + "$2")` with a non-global regex:
the leftmost match is replaced, everything else is kept byte-for-byte. -/
def replaceAtFirst (old new : List Char) : List Char → List Char
  | [] => []
  | c :: cs =>
      match matchVersionAt old (c :: cs) with
      | some (g1, g2, rest) => g1 ++ new ++ g2 :: rest
      | none => c :: replaceAtFirst old new cs

def rewriteVersion (old new text : String) : String :=
  String.mk (replaceAtFirst old.toList new.toList text.toList)

/-! ### Workflow (kickout.js:111-179) -/

inductive KickErr where
  | workingCopyNotClean (status : String)
  | cmdFailed
  | invalidVersion
  | versionMismatch
  | rewriteFailed
deriving DecidableEq, Repr

inductive Effect where
  | runCmd (c : String)
  | printNoop (s : String)
  | writeFile (content : String)
deriving DecidableEq, Repr

structure Scripts where
  prepublish : Option String := none
  prepublishOnly : Option String := none

structure Pkg where
  name : String
  version : String
  scripts : Option Scripts := none

structure Ctx where
  env : String → Option (String × String)
  noop : Bool
  message : String
  tag : String
  bump : String

/-- the `cmd` helper at kickout.js:87-109: in noop mode it only prints the
command line behind a `#` comment marker and resolves with empty output;
otherwise it executes the command (a failure collapses to a generic
error). -/
def stepCmd (ctx : Ctx) (c : String) (noop : Bool) :
    List Effect × Except KickErr (String × String) :=
  if noop then ([.printNoop ("$ # " ++ c)], .ok ("", ""))
  else ([.runCmd c],
    match ctx.env c with
    | some r => .ok r
    | none => .error .cmdFailed)

/-- kickout.js:124-133: classify the `git status --porcelain` result -/
def classifyStatus : Except KickErr (String × String) → String
  | .ok (o, e) => if o = "" ∧ e = "" then "clean" else if e = "" then "changes" else "error"
  | .error _ => "error"

/-- kickout.js:147: `versionOld.replace(/\r?\n$/, "")` -/
def chompNL (s : String) : String :=
  match s.toList.reverse with
  | '\n' :: '\r' :: r => String.mk r.reverse
  | '\n' :: r => String.mk r.reverse
  | _ => s

/-- kickout.js:140-143: which pre-publish script (if any) is run -/
def prepubCmd (pkg : Pkg) : Option String :=
  match pkg.scripts with
  | some s =>
      match s.prepublish with
      | some _ => some "npm run prepublish"
      | none =>
          match s.prepublishOnly with
          | some _ => some "npm run prepublishOnly"
          | none => none
  | none => none

/-- kickout.js:150-153: `semver.neq(pkg.version, versionOld)`; an invalid
version string makes `new SemVer` throw (generic abort), a semantic
inequality aborts with the version-mismatch message; on success the parsed
current version is available for `semver.inc`. -/
def versionCheck (cur pub : String) : Except KickErr SemVer :=
  match semverParse cur, semverParse pub with
  | some u, some v => if semverCompare u v ≠ 0 then .error .versionMismatch else .ok u
  | _, _ => .error .invalidVersion

/-- kickout.js:156-158: the substitution must change the text, else abort -/
def rewriteStep (old new text : String) : Except KickErr String :=
  let t := rewriteVersion old new text
  if t = text then .error .rewriteFailed else .ok t

/-- kickout.js:163-164: commit message defaulting and shell escaping -/
def escQuotes (l : List Char) : List Char :=
  l.flatMap (fun c => if c = '"' then ['\\', '"'] else [c])

def escDollar (l : List Char) : List Char :=
  l.flatMap (fun c => if c = '$' then ['\\', '$'] else [c])

def escapeMsg (s : String) : String := String.mk (escDollar (escQuotes s.toList))

/-- the orchestration of steps 2-9 (kickout.js:123-174).  Step 1 (reading
`package.json`) is represented by the `pkg` / `pkgData` inputs.  Returns
the trace of effects together with the outcome (any `.error` reaches the
top-level handler, which prints the message and exits 1). -/
def runWorkflow (ctx : Ctx) (pkg : Pkg) (pkgData : String) :
    List Effect × Except KickErr Unit :=
  let s2 := stepCmd ctx "git status --porcelain" false
  let status := classifyStatus s2.2
  if status = "clean" then
    let s3 : List Effect × Except KickErr Unit :=
      match prepubCmd pkg with
      | some c => ((stepCmd ctx c ctx.noop).1, (stepCmd ctx c ctx.noop).2.map (fun _ => ()))
      | none => ([], .ok ())
    match s3.2 with
    | .error e => (s2.1 ++ s3.1, .error e)
    | .ok _ =>
      let s4 := stepCmd ctx ("npm view " ++ pkg.name ++ " version") false
      match s4.2 with
      | .error e => (s2.1 ++ s3.1 ++ s4.1, .error e)
      | .ok (so, _) =>
        let t0 := s2.1 ++ s3.1 ++ s4.1
        let versionOld := chompNL so
        match versionCheck pkg.version versionOld with
        | .error e => (t0, .error e)
        | .ok u =>
          let versionNew := resolveNewVersion ctx.bump u
          match rewriteStep versionOld versionNew pkgData with
          | .error e => (t0, .error e)
          | .ok pkgDataNew =>
            let tw := if ctx.noop then [] else [Effect.writeFile pkgDataNew]
            let message := if ctx.message ≠ "" then ctx.message
                           else "release version " ++ versionNew
            let s6 := stepCmd ctx
              ("git commit -m \"" ++ escapeMsg message ++ "\" package.json") ctx.noop
            match s6.2 with
            | .error e => (t0 ++ tw ++ s6.1, .error e)
            | .ok _ =>
              let s7 := stepCmd ctx ("git tag " ++ versionNew) ctx.noop
              match s7.2 with
              | .error e => (t0 ++ tw ++ s6.1 ++ s7.1, .error e)
              | .ok _ =>
                let s8 := stepCmd ctx "git push && git push --tags" ctx.noop
                match s8.2 with
                | .error e => (t0 ++ tw ++ s6.1 ++ s7.1 ++ s8.1, .error e)
                | .ok _ =>
                  let s9 := stepCmd ctx ("npm publish --tag=" ++ ctx.tag) ctx.noop
                  match s9.2 with
                  | .error e => (t0 ++ tw ++ s6.1 ++ s7.1 ++ s8.1 ++ s9.1, .error e)
                  | .ok _ => (t0 ++ tw ++ s6.1 ++ s7.1 ++ s8.1 ++ s9.1, .ok ())
  else (s2.1, .error (.workingCopyNotClean status))

end Kickout

namespace Kickout

/-! ### Rewriter lemmas -/

/-- an occurrence of the regex, with the key quoted by `q1` and the value
quoted by `q2` (the regex also tolerates mixed quotes at each of the four
quote positions; this builder covers the consistently-quoted occurrences
the spec describes) -/
def versionPattern (q1 q2 : Char) (ws1 ws2 ver : List Char) : List Char :=
  q1 :: "version".toList ++ q1 :: ws1 ++ ':' :: ws2 ++ q2 :: ver ++ [q2]

theorem toList_mk (l : List Char) : (String.mk l).toList = l := rfl

theorem dropLit_appendSelf (xs r : List Char) : dropLit xs (xs ++ r) = some r := by
  induction xs with
  | nil => rfl
  | cons c cs ih => simp [dropLit, ih]

theorem takeWhile_append_all (p : Char → Bool) (ws : List Char) (c : Char) (r : List Char)
    (h : ws.all p = true) (hc : p c = false) :
    (ws ++ c :: r).takeWhile p = ws := by
  induction ws with
  | nil => simp [hc]
  | cons a as ih => simp_all

theorem dropWhile_append_all (p : Char → Bool) (ws : List Char) (c : Char) (r : List Char)
    (h : ws.all p = true) (hc : p c = false) :
    (ws ++ c :: r).dropWhile p = c :: r := by
  induction ws with
  | nil => simp [hc]
  | cons a as ih => simp_all

theorem isWSChar_of_quote (c : Char) (h : isQuoteCh c = true) : isWSChar c = false := by
  simp only [isQuoteCh, Bool.or_eq_true, decide_eq_true_eq] at h
  rcases h with rfl | rfl <;> decide

theorem matchVersionAt_pattern (q1 q2 : Char) (ws1 ws2 old suf : List Char)
    (hq1 : isQuoteCh q1 = true) (hq2 : isQuoteCh q2 = true)
    (h1 : ws1.all isWSChar = true) (h2 : ws2.all isWSChar = true) :
    matchVersionAt old (versionPattern q1 q2 ws1 ws2 old ++ suf) =
      some (q1 :: "version".toList ++ q1 :: ws1 ++ ':' :: ws2 ++ [q2], q2, suf) := by
  have hcolon : isWSChar ':' = false := by decide
  have hq2ws : isWSChar q2 = false := isWSChar_of_quote q2 hq2
  simp [matchVersionAt, versionPattern, takeQuote, expectChar, dropLit, hq1, hq2,
    dropLit_appendSelf, h1, h2, hcolon, hq2ws,
    takeWhile_append_all, dropWhile_append_all]

theorem matchVersionAt_notQuote (old : List Char) (c : Char) (l : List Char)
    (hc : isQuoteCh c = false) : matchVersionAt old (c :: l) = none := by
  simp [matchVersionAt, takeQuote, hc]

theorem replaceAtFirst_skip (old new pre l : List Char)
    (hpre : pre.all (fun c => !isQuoteCh c) = true) :
    replaceAtFirst old new (pre ++ l) = pre ++ replaceAtFirst old new l := by
  induction pre with
  | nil => rfl
  | cons c cs ih =>
      simp only [List.all_cons, Bool.and_eq_true, Bool.not_eq_true'] at hpre
      simp only [List.cons_append, replaceAtFirst, matchVersionAt_notQuote old c _ hpre.1,
        List.append_eq]
      rw [ih hpre.2]

theorem replaceAtFirst_pattern (q1 q2 : Char) (ws1 ws2 old new pre suf : List Char)
    (hq1 : isQuoteCh q1 = true) (hq2 : isQuoteCh q2 = true)
    (h1 : ws1.all isWSChar = true) (h2 : ws2.all isWSChar = true)
    (hpre : pre.all (fun c => !isQuoteCh c) = true) :
    replaceAtFirst old new (pre ++ versionPattern q1 q2 ws1 ws2 old ++ suf) =
      pre ++ versionPattern q1 q2 ws1 ws2 new ++ suf := by
  rw [List.append_assoc, replaceAtFirst_skip old new pre _ hpre]
  have hm := matchVersionAt_pattern q1 q2 ws1 ws2 old suf hq1 hq2 h1 h2
  have hshape : versionPattern q1 q2 ws1 ws2 old ++ suf =
      q1 :: ("version".toList ++ q1 :: ws1 ++ ':' :: ws2 ++ q2 :: old ++ q2 :: suf) := by
    simp [versionPattern]
  rw [hshape] at hm ⊢
  rw [replaceAtFirst, hm]
  simp [versionPattern]

theorem mk_toList (s : String) : String.mk s.toList = s := rfl

theorem takeQuote_some (l : List Char) (c : Char) (r : List Char)
    (h : takeQuote l = some (c, r)) : l = c :: r := by
  match l with
  | [] => simp [takeQuote] at h
  | x :: xs =>
      by_cases hx : isQuoteCh x
      · simp [takeQuote, hx] at h
        rw [h.1, h.2]
      · simp [takeQuote, hx] at h

theorem expectChar_some (c : Char) (l r : List Char) (h : expectChar c l = some r) :
    l = c :: r := by
  match l with
  | [] => simp [expectChar] at h
  | x :: xs =>
      by_cases hx : x = c
      · subst hx
        simp [expectChar] at h
        rw [h]
      · simp [expectChar, hx] at h

theorem dropLit_some (xs : List Char) : ∀ l r, dropLit xs l = some r → l = xs ++ r := by
  induction xs with
  | nil =>
      intro l r h
      simp [dropLit] at h
      simp [h]
  | cons c cs ih =>
      intro l r h
      match l with
      | [] => simp [dropLit] at h
      | x :: xt =>
          by_cases hx : x = c
          · subst hx
            simp [dropLit] at h
            rw [ih xt r h]
            rfl
          · simp [dropLit, hx] at h

theorem matchVersionAt_some (old l : List Char) (t : List Char × Char × List Char)
    (h : matchVersionAt old l = some t) : ∃ s r, l = s ++ old ++ r := by
  simp only [matchVersionAt, bind, Option.bind_eq_some] at h
  obtain ⟨⟨q1, r1⟩, h1, h⟩ := h
  obtain ⟨r2, h2, h⟩ := h
  obtain ⟨⟨q2, r3⟩, h3, h⟩ := h
  obtain ⟨r4, h4, h⟩ := h
  obtain ⟨⟨q3, r6⟩, h5, h⟩ := h
  obtain ⟨r7, h6, h⟩ := h
  obtain ⟨⟨q4, r8⟩, h7, h⟩ := h
  dsimp only at h2 h4 h6
  have e1 := takeQuote_some _ _ _ h1
  have e2 := dropLit_some _ _ _ h2
  have e3 := takeQuote_some _ _ _ h3
  have e4 := expectChar_some _ _ _ h4
  have e5 := takeQuote_some _ _ _ h5
  have e6 := dropLit_some _ _ _ h6
  obtain ⟨tw3, e3'⟩ : ∃ t, r3 = t ++ ':' :: r4 :=
    ⟨r3.takeWhile isWSChar, by
      conv_lhs => rw [← List.takeWhile_append_dropWhile isWSChar r3]
      rw [e4]⟩
  obtain ⟨tw4, e4'⟩ : ∃ t, r4 = t ++ q3 :: r6 :=
    ⟨r4.takeWhile isWSChar, by
      conv_lhs => rw [← List.takeWhile_append_dropWhile isWSChar r4]
      rw [e5]⟩
  refine ⟨q1 :: "version".toList ++ q2 :: tw3 ++ ':' :: tw4 ++ [q3], r7, ?_⟩
  rw [e1, e2, e3, e3', e4', e6]
  simp

theorem replaceAtFirst_changed (old new : List Char) :
    ∀ l, replaceAtFirst old new l ≠ l → ∃ s r, l = s ++ old ++ r := by
  intro l
  induction l with
  | nil => intro h; simp [replaceAtFirst] at h
  | cons c cs ih =>
      intro h
      cases hm : matchVersionAt old (c :: cs) with
      | some t => exact matchVersionAt_some old (c :: cs) t hm
      | none =>
          have hne : replaceAtFirst old new cs ≠ cs := by
            intro he
            apply h
            simp only [replaceAtFirst, hm, he]
          obtain ⟨s, r, hr⟩ := ih hne
          exact ⟨c :: s, r, by rw [hr]; rfl⟩

/-- Claim C5: if the version substitution returns text identical to the
input (the pattern matched zero occurrences), the rewrite step fails with
an error rather than succeeding as a silent no-op; conversely, on success
the output text differs from the input. -/
theorem rewrite_noop_is_failure (old new text : String) :
    (rewriteVersion old new text = text →
        rewriteStep old new text = .error .rewriteFailed)
    ∧ (∀ t, rewriteStep old new text = .ok t → t ≠ text) := by
  constructor
  · intro h
    simp [rewriteStep, h]
  · intro t ht
    by_cases h : rewriteVersion old new text = text
    · simp [rewriteStep, h] at ht
    · simp only [rewriteStep, if_neg h, Except.ok.injEq] at ht
      rw [← ht]
      exact h

theorem rewrite_noop_is_failure_witness :
    rewriteStep "1.2.3" "1.2.4" "no version here" = .error .rewriteFailed :=
  (rewrite_noop_is_failure "1.2.3" "1.2.4" "no version here").1 (by decide)

/-- Claim C6: the rewrite pattern matches a `version` key written with
either single or double quotes, followed by a colon and the old-version
string quoted the same way, tolerating whitespace/newlines between key,
colon and value; the replacement changes only the value between the
quotes, leaving the quote style and all surrounding text untouched.
(`pre` carries no quote character, so the shown occurrence is the
leftmost one the regex can match.) -/
theorem rewrite_pattern_shape (q1 q2 : Char) (ws1 ws2 old new pre suf : List Char)
    (hq1 : isQuoteCh q1 = true) (hq2 : isQuoteCh q2 = true)
    (h1 : ws1.all isWSChar = true) (h2 : ws2.all isWSChar = true)
    (hpre : pre.all (fun c => !isQuoteCh c) = true) :
    rewriteVersion (String.mk old) (String.mk new)
        (String.mk (pre ++ versionPattern q1 q2 ws1 ws2 old ++ suf)) =
      String.mk (pre ++ versionPattern q1 q2 ws1 ws2 new ++ suf) := by
  simp only [rewriteVersion, toList_mk]
  rw [replaceAtFirst_pattern q1 q2 ws1 ws2 old new pre suf hq1 hq2 h1 h2 hpre]

theorem rewrite_pattern_shape_witness :
    rewriteVersion (String.mk "1.2.3".toList) (String.mk "1.3.0".toList)
        (String.mk ("  ".toList ++
          versionPattern '"' (Char.ofNat 39) [] [' '] "1.2.3".toList ++ " rest".toList)) =
      String.mk ("  ".toList ++
        versionPattern '"' (Char.ofNat 39) [] [' '] "1.3.0".toList ++ " rest".toList) :=
  rewrite_pattern_shape '"' (Char.ofNat 39) [] [' '] "1.2.3".toList "1.3.0".toList
    "  ".toList " rest".toList (by decide) (by decide) (by decide) (by decide) (by decide)

/-- Claim C10: the substitution replaces only the first occurrence of the
version-key pattern: on a text with two disjoint matches the rewritten
text differs from the original only at the first match; the second match
(and everything after it) stays byte-for-byte unchanged. -/
theorem rewrite_first_occurrence_only (q1 q2 q3 q4 : Char)
    (ws1 ws2 ws3 ws4 old new pre mid suf : List Char)
    (hq1 : isQuoteCh q1 = true) (hq2 : isQuoteCh q2 = true)
    (hq3 : isQuoteCh q3 = true) (hq4 : isQuoteCh q4 = true)
    (h1 : ws1.all isWSChar = true) (h2 : ws2.all isWSChar = true)
    (h3 : ws3.all isWSChar = true) (h4 : ws4.all isWSChar = true)
    (hpre : pre.all (fun c => !isQuoteCh c) = true) :
    rewriteVersion (String.mk old) (String.mk new)
        (String.mk (pre ++ versionPattern q1 q2 ws1 ws2 old ++
          (mid ++ versionPattern q3 q4 ws3 ws4 old ++ suf))) =
      String.mk (pre ++ versionPattern q1 q2 ws1 ws2 new ++
        (mid ++ versionPattern q3 q4 ws3 ws4 old ++ suf)) := by
  simp only [rewriteVersion, toList_mk]
  rw [replaceAtFirst_pattern q1 q2 ws1 ws2 old new pre _ hq1 hq2 h1 h2 hpre]

theorem rewrite_first_occurrence_only_witness :
    rewriteVersion (String.mk "1.2.3".toList) (String.mk "1.3.0".toList)
        (String.mk ([] ++ versionPattern '"' '"' [' '] [' '] "1.2.3".toList ++
          (", ".toList ++ versionPattern '"' '"' [] [] "1.2.3".toList ++ [] ))) =
      String.mk ([] ++ versionPattern '"' '"' [' '] [' '] "1.3.0".toList ++
        (", ".toList ++ versionPattern '"' '"' [] [] "1.2.3".toList ++ [] )) :=
  rewrite_first_occurrence_only '"' '"' '"' '"' [' '] [' '] [] []
    "1.2.3".toList "1.3.0".toList [] ", ".toList []
    (by decide) (by decide) (by decide) (by decide)
    (by decide) (by decide) (by decide) (by decide) (by decide)

/-- Claim C9: the rewrite pattern matches the old-version string literally
(the source escapes it with `escape-string-regexp`): whenever the rewrite
changes the text, the old version occurs verbatim as a contiguous
substring of the original; in particular a manifest whose version field
holds `1x2x3` is not rewritten when the old version is `1.2.3`, although
an unescaped `.` would have matched `x`. -/
theorem rewrite_matches_literally :
    (∀ old new text : String, rewriteVersion old new text ≠ text →
        ∃ s r, text.toList = s ++ old.toList ++ r)
    ∧ rewriteVersion "1.2.3" "9.9.9" "\"version\": \"1x2x3\"" =
        "\"version\": \"1x2x3\"" := by
  constructor
  · intro old new text h
    apply replaceAtFirst_changed old.toList new.toList text.toList
    intro he
    apply h
    simp only [rewriteVersion, he, mk_toList]
  · decide

theorem rewrite_matches_literally_witness :
    ∃ s r, ("\"version\": \"1.2.3\"" : String).toList =
      s ++ ("1.2.3" : String).toList ++ r :=
  rewrite_matches_literally.1 "1.2.3" "1.3.0" "\"version\": \"1.2.3\"" (by decide)

/-! ### Version-resolver claims -/

/-- Claim C3: for every current version X.Y.Z (no prerelease part — any
build metadata is dropped by the increment) and every bump keyword, the
resolved new version increments exactly the targeted component and resets
the lower components to 0; e.g. 1.2.3 with minor yields 1.3.0. -/
theorem bump_keyword_increments_component (x y z : Nat) (b : List String) :
    resolveNewVersion "major" ⟨x, y, z, [], b⟩ = formatSemVer ⟨x + 1, 0, 0, [], []⟩
    ∧ resolveNewVersion "minor" ⟨x, y, z, [], b⟩ = formatSemVer ⟨x, y + 1, 0, [], []⟩
    ∧ resolveNewVersion "patch" ⟨x, y, z, [], b⟩ = formatSemVer ⟨x, y, z + 1, [], []⟩
    ∧ resolveNewVersion "minor" ⟨1, 2, 3, [], []⟩ = "1.3.0" := by
  refine ⟨?_, ?_, ?_, by decide⟩ <;>
    simp [resolveNewVersion, bumpOfString, incSemVer]

/-- Claim C4: the working-copy status check classifies empty stdout and
empty stderr as clean, non-empty stdout with empty stderr as changes, any
stderr output or execution failure as error, and the workflow aborts
(exit 1) unless the classification is clean. -/
theorem git_status_classification (o e : String) (err : KickErr)
    (ctx : Ctx) (pkg : Pkg) (pkgData : String) :
    classifyStatus (.ok ("", "")) = "clean"
    ∧ (o ≠ "" → e = "" → classifyStatus (.ok (o, e)) = "changes")
    ∧ (e ≠ "" → classifyStatus (.ok (o, e)) = "error")
    ∧ classifyStatus (.error err) = "error"
    ∧ (ctx.env "git status --porcelain" = none →
        classifyStatus (stepCmd ctx "git status --porcelain" false).2 = "error")
    ∧ (classifyStatus (stepCmd ctx "git status --porcelain" false).2 ≠ "clean" →
        runWorkflow ctx pkg pkgData =
          ((stepCmd ctx "git status --porcelain" false).1,
            .error (.workingCopyNotClean
              (classifyStatus (stepCmd ctx "git status --porcelain" false).2)))) := by
  refine ⟨rfl, ?_, ?_, rfl, ?_, ?_⟩
  · intro ho he
    subst he
    simp [classifyStatus, ho]
  · intro he
    simp [classifyStatus, he]
  · intro hn
    simp [stepCmd, hn, classifyStatus]
  · intro hnc
    simp only [runWorkflow]
    rw [if_neg hnc]

theorem git_status_classification_witness :
    classifyStatus (.ok ("M file", "")) = "changes" :=
  (git_status_classification "M file" "" KickErr.cmdFailed
    ⟨fun _ => none, false, "", "latest", "patch"⟩ ⟨"foo", "1.0.0", none⟩ "x").2.1
    (by decide) rfl

/-- The spec's notion of versions that "differ textually (e.g. leading
zeros or a v prefix) but are semantically equal": numeric triple equality
under a lenient reading that tolerates a `v` prefix and leading zeros. -/
def lenientParse (s : String) : Option (Nat × Nat × Nat) :=
  match (dropVPfx s.toList).splitOn '.' with
  | [a, b, c] =>
      if a ≠ [] ∧ b ≠ [] ∧ c ≠ [] ∧ (a ++ b ++ c).all isDigitCh = true
      then some (digitsToNat a, digitsToNat b, digitsToNat c) else none
  | _ => none

def lenientEq (a b : String) : Bool :=
  match lenientParse a, lenientParse b with
  | some x, some y => x = y
  | _, _ => false

/-- Claim C7 counterexample: `01.0.0` and `1.0.0` differ textually and are
semantically equal in the spec's sense (leading zeros), yet the code's
check does not pass: node-semver's strict parser rejects leading zeros,
so `semver.neq` throws and the run aborts with a generic invalid-version
error before any comparison is made. -/
theorem leading_zeros_reject_cex :
    ("01.0.0" : String) ≠ "1.0.0"
    ∧ lenientEq "01.0.0" "1.0.0" = true
    ∧ semverParse "01.0.0" = none
    ∧ versionCheck "01.0.0" "1.0.0" = .error .invalidVersion := by
  refine ⟨by decide, by decide, by decide, by rfl⟩

/-- Claim C7 (amended): the equality check between manifest version and
published version is semantic, not textual, over strings the strict
semver grammar accepts: whenever both version strings parse (tolerating a
`v` prefix and build metadata, though not leading zeros) and compare
equal, the check passes and no version-mismatch abort occurs. -/
theorem semantic_equality_check_passes (a b : String) (u v : SemVer)
    (ha : semverParse a = some u) (hb : semverParse b = some v)
    (h : semverCompare u v = 0) : versionCheck a b = .ok u := by
  simp [versionCheck, ha, hb, h]

theorem semantic_equality_check_passes_witness :
    versionCheck "v1.2.3+build" "1.2.3" = .ok ⟨1, 2, 3, [], ["build"]⟩ :=
  semantic_equality_check_passes "v1.2.3+build" "1.2.3"
    ⟨1, 2, 3, [], ["build"]⟩ ⟨1, 2, 3, [], []⟩ (by decide) (by decide) (by decide)

/-! ### Explicit-version claim -/

def envOrdering : String → Option (String × String) := fun c =>
  if c = "npm view foo version" then some ("2.0.0\n", "") else some ("", "")

def ctxOrdering : Ctx := ⟨envOrdering, false, "", "latest", "1.0.0"⟩

def pkgOrdering : Pkg := ⟨"foo", "2.0.0", none⟩

def dataOrdering : String := "\"name\": \"foo\", \"version\": \"2.0.0\""

/-- Claim C8: a bump argument matching `\d+\.\d+\.\d+` is used verbatim as
the new version, with no ordering validation against the current version:
concretely, with current/published version 2.0.0 the explicit argument
1.0.0 (lower than current) is accepted and the workflow runs to success,
writing a manifest whose version is 1.0.0. -/
theorem explicit_version_verbatim :
    (∀ bump : String, isExplicitVersion bump = true →
        ∀ u : SemVer, resolveNewVersion bump u = bump)
    ∧ (runWorkflow ctxOrdering pkgOrdering dataOrdering).2 = .ok ()
    ∧ Effect.writeFile "\"name\": \"foo\", \"version\": \"1.0.0\""
        ∈ (runWorkflow ctxOrdering pkgOrdering dataOrdering).1 := by
  refine ⟨?_, by rfl, by decide⟩
  intro bump hb u
  have h1 : bump ≠ "major" := fun hh => by rw [hh] at hb; exact absurd hb (by decide)
  have h2 : bump ≠ "minor" := fun hh => by rw [hh] at hb; exact absurd hb (by decide)
  have h3 : bump ≠ "patch" := fun hh => by rw [hh] at hb; exact absurd hb (by decide)
  simp [resolveNewVersion, bumpOfString, h1, h2, h3]

theorem explicit_version_verbatim_witness :
    resolveNewVersion "1.0.0" ⟨2, 0, 0, [], []⟩ = "1.0.0" :=
  explicit_version_verbatim.1 "1.0.0" (by decide) ⟨2, 0, 0, [], []⟩

/-! ### Workflow claims -/

/-- Claim C1: for every semantically unequal pair of current and published
versions, the workflow aborts with the version-mismatch error immediately
after the two read-only queries: the trace holds no manifest write and no
commit, tag, push or publish command, so the manifest on disk is
untouched. -/
theorem version_mismatch_aborts (ctx : Ctx) (pkg : Pkg) (pkgData : String)
    (raw err2 pub : String) (u v : SemVer)
    (hst : ctx.env "git status --porcelain" = some ("", ""))
    (hscr : pkg.scripts = none)
    (hview : ctx.env ("npm view " ++ pkg.name ++ " version") = some (raw, err2))
    (hch : chompNL raw = pub)
    (hu : semverParse pkg.version = some u)
    (hv : semverParse pub = some v)
    (hne : semverCompare u v ≠ 0) :
    runWorkflow ctx pkg pkgData =
      ([.runCmd "git status --porcelain",
        .runCmd ("npm view " ++ pkg.name ++ " version")],
        .error .versionMismatch) := by
  simp [runWorkflow, stepCmd, classifyStatus, prepubCmd, versionCheck,
    hst, hscr, hview, hch, hu, hv, hne]

def envMismatch : String → Option (String × String) := fun c =>
  if c = "npm view foo version" then some ("0.9.0\n", "") else some ("", "")

def ctxMismatch : Ctx := ⟨envMismatch, false, "", "latest", "patch"⟩

def pkgMismatch : Pkg := ⟨"foo", "1.0.0", none⟩

theorem version_mismatch_aborts_witness :
    runWorkflow ctxMismatch pkgMismatch "\"version\": \"1.0.0\"" =
      ([.runCmd "git status --porcelain", .runCmd "npm view foo version"],
        .error .versionMismatch) :=
  version_mismatch_aborts ctxMismatch pkgMismatch "\"version\": \"1.0.0\""
    "0.9.0\n" "" "0.9.0" ⟨1, 0, 0, [], []⟩ ⟨0, 9, 0, [], []⟩
    rfl rfl rfl rfl rfl rfl (by decide)

/-- Claim C2: in dry-run (noop) mode the workflow never writes the
manifest file and never really executes a state-mutating command: every
`runCmd` in the trace is one of the two read-only diagnostics (the
working-copy status query, which always runs for real, and the registry
version lookup, which runs for real whenever the status was clean); for
every other command the runner merely prints the command line behind a
`#` comment marker and returns an empty successful result. -/
theorem noop_never_mutates (ctx : Ctx) (pkg : Pkg) (pkgData : String)
    (h : ctx.noop = true) :
    (∀ s, Effect.writeFile s ∉ (runWorkflow ctx pkg pkgData).1)
    ∧ (∀ c, Effect.runCmd c ∈ (runWorkflow ctx pkg pkgData).1 →
        c = "git status --porcelain" ∨ c = "npm view " ++ pkg.name ++ " version")
    ∧ Effect.runCmd "git status --porcelain" ∈ (runWorkflow ctx pkg pkgData).1
    ∧ (classifyStatus (stepCmd ctx "git status --porcelain" false).2 = "clean" →
        Effect.runCmd ("npm view " ++ pkg.name ++ " version")
          ∈ (runWorkflow ctx pkg pkgData).1)
    ∧ (∀ c, stepCmd ctx c true = ([.printNoop ("$ # " ++ c)], .ok ("", ""))) := by
  have hcmd : ∀ c, stepCmd ctx c true =
      ([Effect.printNoop ("$ # " ++ c)], Except.ok ("", "")) := by
    intro c
    simp [stepCmd]
  suffices key : (∀ s, Effect.writeFile s ∉ (runWorkflow ctx pkg pkgData).1)
      ∧ (∀ c, Effect.runCmd c ∈ (runWorkflow ctx pkg pkgData).1 →
          c = "git status --porcelain" ∨ c = "npm view " ++ pkg.name ++ " version")
      ∧ Effect.runCmd "git status --porcelain" ∈ (runWorkflow ctx pkg pkgData).1
      ∧ (classifyStatus (stepCmd ctx "git status --porcelain" false).2 = "clean" →
          Effect.runCmd ("npm view " ++ pkg.name ++ " version")
            ∈ (runWorkflow ctx pkg pkgData).1) by
    exact ⟨key.1, key.2.1, key.2.2.1, key.2.2.2, hcmd⟩
  rcases henv : ctx.env "git status --porcelain" with _ | ⟨o, e⟩
  · simp [runWorkflow, stepCmd, classifyStatus, henv]
  · by_cases ho : o = ""
    · by_cases he : e = ""
      · subst ho
        subst he
        rcases hpp : prepubCmd pkg with _ | c
        · rcases henv2 : ctx.env ("npm view " ++ pkg.name ++ " version") with _ | ⟨so, e2⟩
          · simp [runWorkflow, stepCmd, classifyStatus, Except.map, henv, hpp, henv2]
          · cases hvc : versionCheck pkg.version (chompNL so) with
            | error err =>
                simp [runWorkflow, stepCmd, classifyStatus, Except.map, henv, hpp, henv2, hvc]
            | ok u =>
                cases hrw : rewriteStep (chompNL so) (resolveNewVersion ctx.bump u) pkgData with
                | error err =>
                    simp [runWorkflow, stepCmd, classifyStatus, Except.map, henv, hpp, henv2, hvc, hrw]
                | ok d =>
                    simp [runWorkflow, stepCmd, classifyStatus, Except.map, henv, hpp, henv2, hvc, hrw, h]
        · rcases henv2 : ctx.env ("npm view " ++ pkg.name ++ " version") with _ | ⟨so, e2⟩
          · simp [runWorkflow, stepCmd, classifyStatus, Except.map, henv, hpp, henv2, h]
          · cases hvc : versionCheck pkg.version (chompNL so) with
            | error err =>
                simp [runWorkflow, stepCmd, classifyStatus, Except.map, henv, hpp, henv2, hvc, h]
            | ok u =>
                cases hrw : rewriteStep (chompNL so) (resolveNewVersion ctx.bump u) pkgData with
                | error err =>
                    simp [runWorkflow, stepCmd, classifyStatus, Except.map, henv, hpp, henv2, hvc, hrw, h]
                | ok d =>
                    simp [runWorkflow, stepCmd, classifyStatus, Except.map, henv, hpp, henv2, hvc, hrw, h]
      · simp [runWorkflow, stepCmd, classifyStatus, henv, ho, he]
    · by_cases he : e = ""
      · simp [runWorkflow, stepCmd, classifyStatus, henv, ho, he]
      · simp [runWorkflow, stepCmd, classifyStatus, henv, ho, he]

theorem noop_never_mutates_witness :
    Effect.runCmd "git status --porcelain" ∈
      (runWorkflow ⟨envMismatch, true, "", "latest", "patch"⟩ pkgMismatch "x").1 :=
  (noop_never_mutates ⟨envMismatch, true, "", "latest", "patch"⟩ pkgMismatch "x" rfl).2.2.1
